import Mathlib

/-!
Verification of the metrics-aggregation core of the twitter_test repository.

The embedding models, from `src/src/database/index.ts`:
  * `getDecimals` — asset-decimals resolution against the Hashira network info;
  * the volume loops, chain/asset-pair grouping and top-entry selection of
    `getSwapMetrics`;
  * the per-order volume computation of `getOrderMetrics`;
and, from the companion database module (`getVolumeForIntervalDynamic`,
`getTotalVolumeAllTime`) and the relay comparison module (`getRelayFee`),
the decimal-default fallback and the fee-comparison failure paths.

JavaScript `number` arithmetic is modelled over `ℚ` (the spec accepts
floating-point epsilon; all claims here are exact over the rationals).
JavaScript truthiness of a number is `≠ 0`, of a string is `≠ ""`;
`Record`/`Map` objects are association lists preserving insertion order,
as a JS `Map` does.
-/

namespace TwitterBot

/-- One entry of a network's `assetConfig` list (services/api.ts `AssetConfig`);
only the fields the aggregator reads are modelled. -/
structure AssetConfig where
  name : String
  decimals : Nat
  symbol : String
  tokenAddress : String
  atomicSwapAddress : String
deriving Repr, DecidableEq

/-- One network entry of the Hashira `/info/assets` response
(services/api.ts `NetworkInfo`); only the fields the aggregator reads. -/
structure ChainData0 where
  name : String
  assetConfig : List AssetConfig
deriving Repr, DecidableEq

/-- `Record<string, NetworkInfo>`: an association list keyed by chain id. -/
abbrev NetworkData := List (String × ChainData0)

/-- JS `networkInfo[chain]`: first binding of the key, if any. -/
def lookupChain (networkInfo : NetworkData) (chain : String) : Option ChainData0 :=
  (networkInfo.find? (fun p => p.1 == chain)).map (·.2)

/-- The asset hard-coded at the top of `getDecimals`. -/
def hardcodedStarknetAsset : String :=
  "0x2448040b22b27f5a814756e67da005701e525658b162d4f0343d2e011bc6dad"

/-- JS `toLowerCase()` on the ASCII identifiers this system handles: lower-case
every character. This is character-for-character the effect of Lean's own
`String.toLower` (`s.map Char.toLower`), written structurally so that it
evaluates. -/
def jsToLower (s : String) : String :=
  ⟨s.data.map Char.toLower⟩

/-- The predicate `getDecimals` uses to find an asset inside a chain's
`assetConfig`: case-insensitive match on symbol, token address or atomic-swap
address. -/
def assetMatches (asset : String) (config : AssetConfig) : Bool :=
  jsToLower config.symbol == jsToLower asset ||
    jsToLower config.tokenAddress == jsToLower asset ||
    jsToLower config.atomicSwapAddress == jsToLower asset

/-- `getDecimals` from src/src/database/index.ts: the hard-coded asset always
resolves to 18; otherwise a missing chain or missing asset config throws. -/
def getDecimals (chain asset : String) (networkInfo : NetworkData) :
    Except String Nat :=
  if asset = hardcodedStarknetAsset then .ok 18
  else
    match lookupChain networkInfo chain with
    | none => .error ("Chain " ++ chain ++ " not found in network info")
    | some chainData =>
      match chainData.assetConfig.find? (assetMatches asset) with
      | none => .error ("Asset " ++ asset ++ " not found for chain " ++ chain)
      | some config => .ok config.decimals

/-- A row of the `volumeQuery` / `yesterDayVolumeQuery` result
(`VolumeRow` in src/src/database/index.ts). The `yesterDayVolumeQuery` does
not select `destination_chain`; a row from it carries `""` there, the model
of the undefined field. -/
structure VolumeRow where
  create_order_id : String
  source_swap_amount : ℚ
  destination_swap_amount : ℚ
  source_chain : String
  source_asset : String
  destination_chain : String
  destination_asset : String
  input_token_price : ℚ
  output_token_price : ℚ
deriving Repr, DecidableEq

/-- Body of the all-time volume loop of `getSwapMetrics` for one order:
skipped when price or amount is falsy or the source leg does not resolve;
falls back to the source-side value alone when the destination leg does not
resolve. -/
def allTimeContrib (networkInfo : NetworkData) (o : VolumeRow) : ℚ :=
  if o.input_token_price ≠ 0 ∧ o.source_swap_amount ≠ 0 then
    match getDecimals o.source_chain o.source_asset networkInfo with
    | .error _ => 0
    | .ok decimals =>
      let source_amount := o.source_swap_amount / 10 ^ decimals
      match getDecimals o.destination_chain o.destination_asset networkInfo with
      | .error _ => source_amount * o.input_token_price
      | .ok destination_decimals =>
        let destination_amount :=
          o.destination_swap_amount / 10 ^ destination_decimals
        source_amount * o.input_token_price +
          destination_amount * o.output_token_price
  else 0

/-- The all-time volume accumulation loop of `getSwapMetrics`. -/
def allTimeVolumeOf (networkInfo : NetworkData) (orders : List VolumeRow) : ℚ :=
  orders.foldl (fun acc o => acc + allTimeContrib networkInfo o) 0

/-- Body of the 24-hour volume loop of `getSwapMetrics` for one order: same as
the all-time body, except an explicit guard throws (caught by the inner
`catch`) when the destination chain or asset field is missing. -/
def last24Contrib (networkInfo : NetworkData) (o : VolumeRow) : ℚ :=
  if o.input_token_price ≠ 0 ∧ o.source_swap_amount ≠ 0 then
    match getDecimals o.source_chain o.source_asset networkInfo with
    | .error _ => 0
    | .ok decimals =>
      let source_amount := o.source_swap_amount / 10 ^ decimals
      if o.destination_chain = "" ∨ o.destination_asset = "" then
        source_amount * o.input_token_price
      else
        match getDecimals o.destination_chain o.destination_asset networkInfo with
        | .error _ => source_amount * o.input_token_price
        | .ok destination_decimals =>
          let destination_amount :=
            o.destination_swap_amount / 10 ^ destination_decimals
          source_amount * o.input_token_price +
            destination_amount * o.output_token_price
  else 0

/-- The 24-hour volume accumulation loop of `getSwapMetrics`. -/
def last24HoursVolumeOf (networkInfo : NetworkData) (orders : List VolumeRow) : ℚ :=
  orders.foldl (fun acc o => acc + last24Contrib networkInfo o) 0

/-- The value kept per chain in the `chainCounts` map of `getSwapMetrics`. -/
structure ChainEntry where
  count : Nat
  volume : ℚ
deriving Repr, DecidableEq

/-- The source-side USD value the grouping loops add for one order: zero when
price or amount is falsy or the source leg does not resolve. -/
def sourceUsd (networkInfo : NetworkData) (o : VolumeRow) : ℚ :=
  if o.input_token_price ≠ 0 ∧ o.source_swap_amount ≠ 0 then
    match getDecimals o.source_chain o.source_asset networkInfo with
    | .error _ => 0
    | .ok decimals => o.source_swap_amount / 10 ^ decimals * o.input_token_price
  else 0

/-- Map update as a JS `Map` does it: modify an existing binding in place,
or append a fresh binding (from `⟨0, 0⟩`) at the end. -/
def upsertChain (m : List (String × ChainEntry)) (k : String)
    (f : ChainEntry → ChainEntry) : List (String × ChainEntry) :=
  match m with
  | [] => [(k, f ⟨0, 0⟩)]
  | (k₀, v) :: rest =>
    if k₀ = k then (k₀, f v) :: rest else (k₀, v) :: upsertChain rest k f

/-- Body of the chain-grouping loop of `getSwapMetrics` for one order:
orders with a falsy source chain are skipped; the count always increments,
the volume grows by the source-side USD value when it is computable. -/
def chainCountsStep (networkInfo : NetworkData)
    (m : List (String × ChainEntry)) (o : VolumeRow) :
    List (String × ChainEntry) :=
  if o.source_chain = "" then m
  else
    upsertChain m (jsToLower o.source_chain)
      (fun e => ⟨e.count + 1, e.volume + sourceUsd networkInfo o⟩)

/-- The `chainCounts` map built by `getSwapMetrics`. -/
def chainCounts (networkInfo : NetworkData) (orders : List VolumeRow) :
    List (String × ChainEntry) :=
  orders.foldl (chainCountsStep networkInfo) []

/-- One step of the top-chain selection loop of `getSwapMetrics`: a later
entry replaces the current best exactly when its count is larger, or its
count is equal and its volume is larger. -/
def pickStepChain (best : Option (String × ChainEntry)) (e : String × ChainEntry) :
    Option (String × ChainEntry) :=
  match best with
  | none => some e
  | some b =>
    if e.2.count > b.2.count then some e
    else if e.2.count = b.2.count ∧ e.2.volume > b.2.volume then some e
    else some b

/-- The top-chain selection loop of `getSwapMetrics`. -/
def pickTopChain (entries : List (String × ChainEntry)) :
    Option (String × ChainEntry) :=
  entries.foldl pickStepChain none

/-- JS `a || b` on strings: the empty string is falsy. -/
def jsOrString (a b : String) : String :=
  if a = "" then b else a

/-- The `topChain` field of the returned `SwapMetrics`. -/
structure TopChain where
  name : String
  count : Nat
deriving Repr, DecidableEq

/-- Name resolution for the winning chain entry:
`chainInfo?.name || chainIdentifier || "unknown"`, or the
`{name: "unknown", count: 0}` default when there was no entry at all. -/
def renderTopChain (networkInfo : NetworkData)
    (entry : Option (String × ChainEntry)) : TopChain :=
  match entry with
  | none => ⟨"unknown", 0⟩
  | some (chainIdentifier, e) =>
    let chainData :=
      if chainIdentifier = "" then none
      else lookupChain networkInfo chainIdentifier
    let resolved :=
      jsOrString
        (match chainData with
         | some c => c.name
         | none => "")
        (jsOrString chainIdentifier "unknown")
    ⟨resolved, e.count⟩

/-- The value kept per (chain, asset) key in the `assetPairCounts` map. -/
structure PairEntry where
  count : Nat
  volume : ℚ
  chain : String
  asset : String
deriving Repr, DecidableEq

/-- Map update for the asset-pair map: modify an existing binding in place, or
append a fresh binding initialised with the order's lower-cased chain and
asset. -/
def upsertPair (m : List (String × PairEntry)) (k : String) (init : PairEntry)
    (f : PairEntry → PairEntry) : List (String × PairEntry) :=
  match m with
  | [] => [(k, f init)]
  | (k₀, v) :: rest =>
    if k₀ = k then (k₀, f v) :: rest else (k₀, v) :: upsertPair rest k init f

/-- Body of the asset-pair grouping loop of `getSwapMetrics` for one order. -/
def pairCountsStep (networkInfo : NetworkData)
    (m : List (String × PairEntry)) (o : VolumeRow) :
    List (String × PairEntry) :=
  if o.source_chain = "" ∨ o.source_asset = "" then m
  else
    upsertPair m (jsToLower o.source_chain ++ "_" ++ jsToLower o.source_asset)
      ⟨0, 0, jsToLower o.source_chain, jsToLower o.source_asset⟩
      (fun e => ⟨e.count + 1, e.volume + sourceUsd networkInfo o, e.chain, e.asset⟩)

/-- The `assetPairCounts` map built by `getSwapMetrics`. -/
def assetPairCounts (networkInfo : NetworkData) (orders : List VolumeRow) :
    List (String × PairEntry) :=
  orders.foldl (pairCountsStep networkInfo) []

/-- One step of the top-asset-pair selection loop: same count-then-volume
rule as for chains. -/
def pickStepPair (best : Option (String × PairEntry)) (e : String × PairEntry) :
    Option (String × PairEntry) :=
  match best with
  | none => some e
  | some b =>
    if e.2.count > b.2.count then some e
    else if e.2.count = b.2.count ∧ e.2.volume > b.2.volume then some e
    else some b

/-- The top-asset-pair selection loop of `getSwapMetrics`. -/
def pickTopPair (entries : List (String × PairEntry)) :
    Option (String × PairEntry) :=
  entries.foldl pickStepPair none

/-- The `topAssetPair` field of the returned `SwapMetrics`. -/
structure TopAssetPair where
  pair : String
  count : Nat
deriving Repr, DecidableEq

/-- Label resolution for the winning asset-pair entry:
`assetAddress || "unknown"`, replaced by `SYMBOL (Name)` when the chain is in
the network info and an asset config matches the token address. -/
def renderTopPair (networkInfo : NetworkData)
    (entry : Option (String × PairEntry)) : TopAssetPair :=
  match entry with
  | none => ⟨"unknown", 0⟩
  | some (_, e) =>
    let base := jsOrString e.asset "unknown"
    let resolved :=
      if e.chain ≠ "" ∧ e.asset ≠ "" then
        match lookupChain networkInfo e.chain with
        | some chainData =>
          match chainData.assetConfig.find?
              (fun a => jsToLower a.tokenAddress == jsToLower e.asset) with
          | some config => config.symbol ++ " (" ++ config.name ++ ")"
          | none => base
        | none => base
      else base
    ⟨resolved, e.count⟩

/-- The input snapshot `getSwapMetrics` works from: the two count-query rows,
the distinct-user count, the two volume-query row lists, and the network
info. -/
structure SwapMetricsInput where
  total_orders : Nat
  fulfilled_orders : Nat
  yesterday_total_orders : Nat
  total_users : Nat
  volumeData : List VolumeRow
  yesterdayVolumeData : List VolumeRow
  networkInfo : NetworkData
deriving Repr, DecidableEq

/-- The `SwapMetrics` record returned by `getSwapMetrics`. -/
structure SwapMetrics where
  allOrders : Nat
  totalSwaps : Nat
  last24HoursSwaps : Nat
  last24HoursVolume : ℚ
  allTimeVolume : ℚ
  topChain : TopChain
  topAssetPair : TopAssetPair
  completionRate : ℚ
deriving Repr, DecidableEq

/-- `getSwapMetrics` from src/src/database/index.ts, with the database and
network responses abstracted into the input snapshot. -/
def getSwapMetrics (inp : SwapMetricsInput) : SwapMetrics :=
  let networkInfo := inp.networkInfo
  { allOrders := inp.total_orders
    totalSwaps := inp.fulfilled_orders
    last24HoursSwaps := inp.yesterday_total_orders
    last24HoursVolume := last24HoursVolumeOf networkInfo inp.yesterdayVolumeData
    allTimeVolume := allTimeVolumeOf networkInfo inp.volumeData
    topChain := renderTopChain networkInfo
      (pickTopChain (chainCounts networkInfo inp.volumeData))
    topAssetPair := renderTopPair networkInfo
      (pickTopPair (assetPairCounts networkInfo inp.volumeData))
    completionRate :=
      if inp.total_orders > 0 then
        (inp.fulfilled_orders : ℚ) / (inp.total_orders : ℚ)
      else 0 }

/-- Per-order volume of `getOrderMetrics`: both terms divide the SOURCE swap
amount by the respective side's decimals; a resolution failure on either leg
leaves the order volume at its initial 0. -/
def orderMetricsVolume (networkInfo : NetworkData) (o : VolumeRow) : ℚ :=
  match getDecimals o.source_chain o.source_asset networkInfo with
  | .error _ => 0
  | .ok sourceDecimals =>
    match getDecimals o.destination_chain o.destination_asset networkInfo with
    | .error _ => 0
    | .ok destinationDecimals =>
      o.source_swap_amount / 10 ^ sourceDecimals * o.input_token_price +
        o.source_swap_amount / 10 ^ destinationDecimals * o.output_token_price

/-- A true two-sided USD value of an order, written from the spec's words for
comparison with `orderMetricsVolume`: each leg converts its OWN raw amount by
its own decimals and multiplies by its own price. -/
def trueTwoSidedUsdValue (sourceDecimals destinationDecimals : Nat)
    (o : VolumeRow) : ℚ :=
  o.source_swap_amount / 10 ^ sourceDecimals * o.input_token_price +
    o.destination_swap_amount / 10 ^ destinationDecimals * o.output_token_price

/-- JS `a || b` where `a` is an optional number lookup: `undefined` and `0`
are both falsy. -/
def jsOrNat (a : Option Nat) (b : Nat) : Nat :=
  match a with
  | some v => if v = 0 then b else v
  | none => b

/-- Lookup in the `decimalMapping` built by the dynamic volume helpers. -/
def decimalMappingGet (m : List (String × Nat)) (k : String) : Option Nat :=
  (m.find? (fun p => p.1 == k)).map (·.2)

/-- Source-decimals resolution of `getVolumeForIntervalDynamic` and
`getTotalVolumeAllTime`: `decimalMapping.get(key) || (bitcoin_testnet primary
? 8 : 18)` — a miss silently falls back to a default instead of erroring. -/
def sourceDecimalsDynamic (decimalMapping : List (String × Nat))
    (source_chain source_asset : String) : Nat :=
  jsOrNat (decimalMappingGet decimalMapping (source_chain ++ "_" ++ source_asset))
    (if source_chain = "bitcoin_testnet" ∧ source_asset = "primary" then 8 else 18)

/-- The `comparisonMetric` record of the fee-comparison modules. -/
structure ComparisonMetric where
  fee : ℚ
  time : ℚ
deriving Repr, DecidableEq

/-- The relay-format mapping entry `getFormattedAsset` may return. -/
structure RelayFormat where
  chainId : String
  currency : String
deriving Repr, DecidableEq

/-- The part of a relay quote response `getRelayFee` reads. -/
structure RelayDetails where
  currencyInAmountUsd : ℚ
  currencyOutAmountUsd : ℚ
  timeEstimate : ℚ
deriving Repr, DecidableEq

/-- A relay quote response: `hasFees` models the truthiness of `data.fees`. -/
structure RelayResponse where
  hasFees : Bool
  details : RelayDetails
deriving Repr, DecidableEq

/-- `RELAY_BTC_SWAP_TIME` from the comparison constants (seconds). -/
def RELAY_BTC_SWAP_TIME : ℚ := 1200

/-- `getRelayFee`: the asset-mapping results are `Option`s (`undefined` on a
missing mapping), the POST outcome is `none` when the request threw. Every
failure path returns the zero metric. -/
def getRelayFee (srcFormat destFormat : Option RelayFormat)
    (srcIsBitcoin destIsBitcoin : Bool)
    (response : Option RelayResponse) : ComparisonMetric :=
  match srcFormat, destFormat with
  | some _, some _ =>
    match response with
    | none => ⟨0, 0⟩
    | some r =>
      if r.hasFees = false then ⟨0, 0⟩
      else
        ⟨r.details.currencyInAmountUsd - r.details.currencyOutAmountUsd,
          if srcIsBitcoin || destIsBitcoin then RELAY_BTC_SWAP_TIME
          else r.details.timeEstimate⟩
  | _, _ => ⟨0, 0⟩

/-- Pure count bookkeeping of the chain-grouping loop, with the volume (hence
every use of the network info) stripped out; used to state that the counts do
not depend on decimals resolution. -/
def upsertCount (m : List (String × Nat)) (k : String) : List (String × Nat) :=
  match m with
  | [] => [(k, 1)]
  | (k₀, v) :: rest =>
    if k₀ = k then (k₀, v + 1) :: rest else (k₀, v) :: upsertCount rest k

/-- The per-chain order counts of the grouping loop, computed without any
reference to the network info. -/
def chainCountsOnly (orders : List VolumeRow) : List (String × Nat) :=
  orders.foldl
    (fun m o =>
      if o.source_chain = "" then m else upsertCount m (jsToLower o.source_chain))
    []

section Lemmas

/-- Accumulating a sum in a fold is adding the sum of the mapped list. -/
lemma foldl_add_eq_sum {α : Type} (f : α → ℚ) (l : List α) (init : ℚ) :
    l.foldl (fun acc x => acc + f x) init = init + (l.map f).sum := by
  induction l generalizing init with
  | nil => simp
  | cons x xs ih => simp only [List.foldl_cons, List.map_cons, List.sum_cons, ih]; ring

/-- An order whose source leg does not resolve contributes nothing to the
all-time volume. -/
lemma allTimeContrib_eq_zero_of_source_error (networkInfo : NetworkData)
    (o : VolumeRow) (e : String)
    (h : getDecimals o.source_chain o.source_asset networkInfo = .error e) :
    allTimeContrib networkInfo o = 0 := by
  simp [allTimeContrib, h]

/-- An order whose source leg does not resolve contributes nothing to the
24-hour volume. -/
lemma last24Contrib_eq_zero_of_source_error (networkInfo : NetworkData)
    (o : VolumeRow) (e : String)
    (h : getDecimals o.source_chain o.source_asset networkInfo = .error e) :
    last24Contrib networkInfo o = 0 := by
  simp [last24Contrib, h]

/-- An order with truthy price and amount whose source leg resolves but whose
destination leg does not contributes exactly its source-side USD value. -/
lemma allTimeContrib_source_fallback (networkInfo : NetworkData)
    (o : VolumeRow) (d : Nat) (e : String)
    (hp : o.input_token_price ≠ 0) (ha : o.source_swap_amount ≠ 0)
    (hs : getDecimals o.source_chain o.source_asset networkInfo = .ok d)
    (hd : getDecimals o.destination_chain o.destination_asset networkInfo =
      .error e) :
    allTimeContrib networkInfo o =
      o.source_swap_amount / 10 ^ d * o.input_token_price := by
  simp [allTimeContrib, hp, ha, hs, hd]

end Lemmas

/-- C1: an order in the all-time list whose source leg resolves but whose
destination leg does not still adds its source-side USD value (raw amount over
`10 ^ decimals`, times the input token price) to `allTimeVolume`; it is not
dropped from the sum. -/
theorem allTime_volume_keeps_source_side (networkInfo : NetworkData)
    (o : VolumeRow) (d : Nat) (e : String) (l₁ l₂ : List VolumeRow)
    (hp : o.input_token_price ≠ 0) (ha : o.source_swap_amount ≠ 0)
    (hs : getDecimals o.source_chain o.source_asset networkInfo = .ok d)
    (hd : getDecimals o.destination_chain o.destination_asset networkInfo =
      .error e) :
    allTimeVolumeOf networkInfo (l₁ ++ o :: l₂) =
      allTimeVolumeOf networkInfo (l₁ ++ l₂) +
        o.source_swap_amount / 10 ^ d * o.input_token_price := by
  simp only [allTimeVolumeOf, foldl_add_eq_sum, List.map_append, List.map_cons,
    List.sum_append, List.sum_cons,
    allTimeContrib_source_fallback networkInfo o d e hp ha hs hd]
  ring

/-- C2: a single all-time order of 10^18 raw source units at 18 source
decimals and input price 2000, whose destination leg does not resolve, yields
`allTimeVolume = 2000` (exact over `ℚ`; the spec allows floating-point
epsilon). -/
theorem allTime_volume_eth_example (networkInfo : NetworkData) (o : VolumeRow)
    (e : String)
    (_hchain : o.source_chain = "ethereum")
    (ha : o.source_swap_amount = 10 ^ 18)
    (hp : o.input_token_price = 2000)
    (hs : getDecimals o.source_chain o.source_asset networkInfo = .ok 18)
    (hd : getDecimals o.destination_chain o.destination_asset networkInfo =
      .error e) :
    allTimeVolumeOf networkInfo [o] = 2000 := by
  have hp0 : o.input_token_price ≠ 0 := by rw [hp]; norm_num
  have ha0 : o.source_swap_amount ≠ 0 := by rw [ha]; positivity
  have := allTimeContrib_source_fallback networkInfo o 18 e hp0 ha0 hs hd
  simp only [allTimeVolumeOf, List.foldl_cons, List.foldl_nil, zero_add, this,
    ha, hp]
  norm_num

/-- A network-info fixture with a single chain and asset. -/
def ethNi : NetworkData :=
  [("ethereum", ⟨"Ethereum",
    [⟨"Wrapped Ether", 18, "WETH", "0x1111", "0x2222"⟩]⟩)]

/-- An order whose source leg resolves against `ethNi` and whose destination
chain does not appear in it. -/
def ethOrder : VolumeRow :=
  ⟨"order-1", 10 ^ 18, 7, "ethereum", "WETH", "base", "USDC", 2000, 5⟩

/-- Witness for C1 at a concrete order whose destination chain is unknown. -/
theorem allTime_volume_keeps_source_side_witness :
    allTimeVolumeOf ethNi ([] ++ ethOrder :: []) =
      allTimeVolumeOf ethNi ([] ++ []) +
        ethOrder.source_swap_amount / 10 ^ 18 * ethOrder.input_token_price :=
  allTime_volume_keeps_source_side ethNi ethOrder 18
    "Chain base not found in network info" [] []
    (by norm_num [ethOrder]) (by norm_num [ethOrder]) rfl rfl

/-- Witness for C2: the concrete 1.0-unit, $2000 order. -/
theorem allTime_volume_eth_example_witness :
    allTimeVolumeOf ethNi [ethOrder] = 2000 :=
  allTime_volume_eth_example ethNi ethOrder
    "Chain base not found in network info" rfl rfl rfl rfl rfl

/-- C3: when the grouping produced exactly two chains with equal order counts
and distinct volumes, the selection loop picks the entry with the strictly
larger summed source-side USD volume — whichever of the two positions it
occupies (the winner's volume is the max of the two) — and `topChain` is
rendered from that winner. -/
theorem topChain_count_tie_broken_by_volume (inp : SwapMetricsInput)
    (c₁ c₂ : String) (d₁ d₂ : ChainEntry)
    (hcc : chainCounts inp.networkInfo inp.volumeData = [(c₁, d₁), (c₂, d₂)])
    (hcount : d₁.count = d₂.count) (hvol : d₁.volume ≠ d₂.volume) :
    pickTopChain (chainCounts inp.networkInfo inp.volumeData) =
        some (if d₁.volume < d₂.volume then (c₂, d₂) else (c₁, d₁)) ∧
      (if d₁.volume < d₂.volume then (c₂, d₂) else (c₁, d₁)).2.volume =
        max d₁.volume d₂.volume ∧
      (getSwapMetrics inp).topChain =
        renderTopChain inp.networkInfo
          (some (if d₁.volume < d₂.volume then (c₂, d₂) else (c₁, d₁))) := by
  have hpick : pickTopChain (chainCounts inp.networkInfo inp.volumeData) =
      some (if d₁.volume < d₂.volume then (c₂, d₂) else (c₁, d₁)) := by
    rw [hcc]
    by_cases hlt : d₁.volume < d₂.volume
    · simp [pickTopChain, pickStepChain, hcount, hlt]
    · simp [pickTopChain, pickStepChain, hcount, hlt]
  refine ⟨hpick, ?_, by simp [getSwapMetrics, hpick]⟩
  by_cases hlt : d₁.volume < d₂.volume
  · simp [hlt, max_eq_right hlt.le]
  · have hgt : d₂.volume < d₁.volume := (not_lt.mp hlt).lt_of_ne hvol.symm
    simp [hlt, max_eq_left hgt.le]

/-- A network-info fixture with the two tied chains of the C3 example. -/
def tieNi : NetworkData :=
  [("alpha", ⟨"Alpha", [⟨"Alpha Coin", 0, "ALP", "0xaaaa", "0xaaab"⟩]⟩),
   ("beta", ⟨"Beta", [⟨"Beta Coin", 0, "BET", "0xbbbb", "0xbbbc"⟩]⟩)]

/-- One order on chain alpha worth $20 source-side. -/
def alphaOrder : VolumeRow :=
  ⟨"a", 20, 0, "alpha", "ALP", "", "", 1, 0⟩

/-- One order on chain beta worth $40 source-side. -/
def betaOrder : VolumeRow :=
  ⟨"b", 40, 0, "beta", "BET", "", "", 1, 0⟩

/-- The C3 example snapshot: five orders per chain, volumes 100 vs 200. -/
def tieInput : SwapMetricsInput :=
  ⟨10, 10, 0, 0,
    [alphaOrder, alphaOrder, alphaOrder, alphaOrder, alphaOrder,
     betaOrder, betaOrder, betaOrder, betaOrder, betaOrder],
    [], tieNi⟩

set_option maxRecDepth 100000 in
/-- Witness for C3: counts 5 and 5, volumes 100 and 200 — beta wins. -/
theorem topChain_count_tie_broken_by_volume_witness :
    pickTopChain (chainCounts tieInput.networkInfo tieInput.volumeData) =
        some (if (⟨5, 100⟩ : ChainEntry).volume < (⟨5, 200⟩ : ChainEntry).volume
          then ("beta", (⟨5, 200⟩ : ChainEntry)) else ("alpha", ⟨5, 100⟩)) ∧
      (if (⟨5, 100⟩ : ChainEntry).volume < (⟨5, 200⟩ : ChainEntry).volume
          then ("beta", (⟨5, 200⟩ : ChainEntry))
          else ("alpha", ⟨5, 100⟩)).2.volume =
        max (⟨5, 100⟩ : ChainEntry).volume (⟨5, 200⟩ : ChainEntry).volume ∧
      (getSwapMetrics tieInput).topChain =
        renderTopChain tieInput.networkInfo
          (some (if (⟨5, 100⟩ : ChainEntry).volume <
                (⟨5, 200⟩ : ChainEntry).volume
            then ("beta", (⟨5, 200⟩ : ChainEntry)) else ("alpha", ⟨5, 100⟩))) :=
  topChain_count_tie_broken_by_volume tieInput "alpha" "beta" ⟨5, 100⟩ ⟨5, 200⟩
    (by with_unfolding_all decide) rfl (by norm_num)

/-- C4: for an empty order snapshot (no orders, zero counts) the aggregator
returns zero volumes, the unknown top chain and asset pair, and completion
rate 0. -/
theorem swap_metrics_empty_input (networkInfo : NetworkData) :
    getSwapMetrics ⟨0, 0, 0, 0, [], [], networkInfo⟩ =
      ⟨0, 0, 0, 0, 0, ⟨"unknown", 0⟩, ⟨"unknown", 0⟩, 0⟩ := rfl

/-- C5: the completion rate is the successful count over the matched count
when the latter is positive and 0 otherwise, and it always lies in [0, 1]
when successes do not exceed matches. -/
theorem completion_rate_safe_division (inp : SwapMetricsInput)
    (h : inp.fulfilled_orders ≤ inp.total_orders) :
    ((getSwapMetrics inp).completionRate =
        if 0 < inp.total_orders then
          (inp.fulfilled_orders : ℚ) / (inp.total_orders : ℚ)
        else 0) ∧
      0 ≤ (getSwapMetrics inp).completionRate ∧
      (getSwapMetrics inp).completionRate ≤ 1 := by
  have hrate : (getSwapMetrics inp).completionRate =
      if 0 < inp.total_orders then
        (inp.fulfilled_orders : ℚ) / (inp.total_orders : ℚ)
      else 0 := rfl
  refine ⟨hrate, ?_, ?_⟩ <;> rw [hrate]
  · split_ifs with hm
    · positivity
    · norm_num
  · split_ifs with hm
    · rw [div_le_one (by exact_mod_cast hm)]
      exact_mod_cast h
    · norm_num

/-- A small snapshot with 4 matched and 3 successful orders. -/
def smallInput : SwapMetricsInput :=
  ⟨4, 3, 0, 0, [], [], []⟩

/-- Witness for C5 at 3 successes over 4 matches. -/
theorem completion_rate_safe_division_witness :
    smallInput.fulfilled_orders ≤ smallInput.total_orders ∧
      (((getSwapMetrics smallInput).completionRate =
          if 0 < smallInput.total_orders then
            (smallInput.fulfilled_orders : ℚ) / (smallInput.total_orders : ℚ)
          else 0) ∧
        0 ≤ (getSwapMetrics smallInput).completionRate ∧
        (getSwapMetrics smallInput).completionRate ≤ 1) :=
  ⟨by decide, completion_rate_safe_division smallInput (by decide)⟩

/-- C8: the aggregator is deterministic — equal input snapshots produce equal
`SwapMetrics`, including the top-chain and top-asset-pair selections. -/
theorem swap_metrics_deterministic (a b : SwapMetricsInput) (h : a = b) :
    getSwapMetrics a = getSwapMetrics b := by
  rw [h]

/-- Witness for C8 at a concrete snapshot. -/
theorem swap_metrics_deterministic_witness :
    getSwapMetrics smallInput = getSwapMetrics smallInput :=
  swap_metrics_deterministic smallInput smallInput rfl

/-- C9: every failure path of the relay fee comparison — missing asset
mapping on either side, request error, or a response without fees — returns
the zero metric instead of raising. -/
theorem relay_fee_failure_returns_zero
    (srcFormat destFormat : Option RelayFormat)
    (srcIsBitcoin destIsBitcoin : Bool) (response : Option RelayResponse)
    (h : srcFormat = none ∨ destFormat = none ∨ response = none ∨
      ∃ r, response = some r ∧ r.hasFees = false) :
    getRelayFee srcFormat destFormat srcIsBitcoin destIsBitcoin response =
      ⟨0, 0⟩ := by
  rcases h with h | h | h | ⟨r, hr, hf⟩
  · subst h; cases destFormat <;> rfl
  · subst h; cases srcFormat <;> rfl
  · subst h; cases srcFormat <;> cases destFormat <;> rfl
  · subst hr
    cases srcFormat <;> cases destFormat <;> simp [getRelayFee, hf]

/-- Witness for C9: a missing source-asset mapping yields the zero metric. -/
theorem relay_fee_failure_returns_zero_witness :
    getRelayFee none (some ⟨"1", "eth"⟩) false false none = ⟨0, 0⟩ :=
  relay_fee_failure_returns_zero none (some ⟨"1", "eth"⟩) false false none
    (Or.inl rfl)

section CountLemmas

/-- Keeping only the key and the count of a chain entry. -/
def countView (p : String × ChainEntry) : String × Nat :=
  (p.1, p.2.count)

/-- A map update whose function increments the count projects, under
`countView`, to the pure count update. -/
lemma map_upsertChain (m : List (String × ChainEntry)) (k : String)
    (f : ChainEntry → ChainEntry) (hf : ∀ e, (f e).count = e.count + 1) :
    (upsertChain m k f).map countView = upsertCount (m.map countView) k := by
  induction m with
  | nil => simp [upsertChain, upsertCount, countView, hf]
  | cons p rest ih =>
    obtain ⟨k₀, v⟩ := p
    by_cases hk : k₀ = k
    · simp [upsertChain, upsertCount, countView, hk, hf]
    · simp [upsertChain, upsertCount, countView, hk, ih]

/-- The counts of the chain-grouping loop do not depend on the network info:
projected to counts, the loop is the pure counting loop. -/
lemma chainCounts_map_countView (networkInfo : NetworkData)
    (orders : List VolumeRow) (acc : List (String × ChainEntry)) :
    (orders.foldl (chainCountsStep networkInfo) acc).map countView =
      orders.foldl
        (fun m o =>
          if o.source_chain = "" then m
          else upsertCount m (jsToLower o.source_chain))
        (acc.map countView) := by
  induction orders generalizing acc with
  | nil => simp
  | cons o rest ih =>
    simp only [List.foldl_cons, ih]
    congr 1
    by_cases hc : o.source_chain = ""
    · simp [chainCountsStep, hc]
    · simp only [chainCountsStep, hc, if_neg hc, ite_false]
      exact map_upsertChain acc (jsToLower o.source_chain) _ (fun _ => rfl)

/-- `chainCounts` projected to counts is `chainCountsOnly`. -/
lemma chainCounts_counts_eq (networkInfo : NetworkData)
    (orders : List VolumeRow) :
    (chainCounts networkInfo orders).map countView = chainCountsOnly orders := by
  simpa [chainCounts, chainCountsOnly] using
    chainCounts_map_countView networkInfo orders []

/-- A map update never produces the empty map. -/
lemma upsertChain_ne_nil (m : List (String × ChainEntry)) (k : String)
    (f : ChainEntry → ChainEntry) : upsertChain m k f ≠ [] := by
  cases m with
  | nil => simp [upsertChain]
  | cons p rest =>
    obtain ⟨k₀, v⟩ := p
    by_cases hk : k₀ = k <;> simp [upsertChain, hk]

/-- The grouping loop never shrinks a non-empty accumulator to empty. -/
lemma foldl_chainCountsStep_ne_nil (networkInfo : NetworkData)
    (orders : List VolumeRow) (acc : List (String × ChainEntry))
    (hacc : acc ≠ []) :
    orders.foldl (chainCountsStep networkInfo) acc ≠ [] := by
  induction orders generalizing acc with
  | nil => exact hacc
  | cons o rest ih =>
    simp only [List.foldl_cons]
    apply ih
    by_cases hc : o.source_chain = ""
    · simpa [chainCountsStep, hc]
    · simpa [chainCountsStep, hc] using upsertChain_ne_nil _ _ _

/-- Every element of an updated map comes from the old map or is the updated
binding of the key. -/
lemma mem_upsertChain (m : List (String × ChainEntry)) (k : String)
    (f : ChainEntry → ChainEntry) (p : String × ChainEntry)
    (hp : p ∈ upsertChain m k f) : p ∈ m ∨ ∃ e, p = (k, f e) := by
  induction m with
  | nil =>
    have h0 : upsertChain [] k f = [(k, f ⟨0, 0⟩)] := rfl
    rw [h0, List.mem_singleton] at hp
    exact Or.inr ⟨⟨0, 0⟩, hp⟩
  | cons q rest ih =>
    obtain ⟨k₀, v⟩ := q
    have hstep : upsertChain ((k₀, v) :: rest) k f =
        if k₀ = k then (k₀, f v) :: rest
        else (k₀, v) :: upsertChain rest k f := rfl
    rw [hstep] at hp
    by_cases hk : k₀ = k
    · rw [if_pos hk, List.mem_cons] at hp
      rcases hp with hp | hp
      · exact Or.inr ⟨v, hp.trans (by rw [hk])⟩
      · exact Or.inl (List.mem_cons_of_mem _ hp)
    · rw [if_neg hk, List.mem_cons] at hp
      rcases hp with hp | hp
      · exact Or.inl (by rw [hp]; exact List.mem_cons_self _ _)
      · rcases ih hp with h | h
        · exact Or.inl (List.mem_cons_of_mem _ h)
        · exact Or.inr h

/-- Every entry the grouping loop produces counts at least one order. -/
lemma chainCounts_count_pos (networkInfo : NetworkData)
    (orders : List VolumeRow) (acc : List (String × ChainEntry))
    (hacc : ∀ p ∈ acc, 0 < p.2.count) :
    ∀ p ∈ orders.foldl (chainCountsStep networkInfo) acc, 0 < p.2.count := by
  induction orders generalizing acc with
  | nil =>
    intro p hp
    simp only [List.foldl_nil] at hp
    exact hacc p hp
  | cons o rest ih =>
    simp only [List.foldl_cons]
    apply ih
    intro p hp
    by_cases hc : o.source_chain = ""
    · exact hacc p (by simpa [chainCountsStep, hc] using hp)
    · rcases mem_upsertChain _ _ _ p
          (by simpa [chainCountsStep, hc] using hp) with h | ⟨e, he⟩
      · exact hacc p h
      · subst he
        exact Nat.succ_pos _

/-- A selection step from a `some` state keeps either the candidate or the
previous best. -/
lemma pickStepChain_cases (b e : String × ChainEntry) :
    pickStepChain (some b) e = some e ∨ pickStepChain (some b) e = some b := by
  by_cases h1 : e.2.count > b.2.count
  · exact Or.inl (by simp [pickStepChain, h1])
  · by_cases h2 : e.2.count = b.2.count ∧ e.2.volume > b.2.volume
    · exact Or.inl (by simp [pickStepChain, h1, h2])
    · exact Or.inr (by simp [pickStepChain, h1, h2])

/-- Folding the selection step from a positive-count state over positive-count
entries ends in a positive-count state. -/
lemma foldl_pickStepChain_pos (entries : List (String × ChainEntry))
    (b : String × ChainEntry) (hb : 0 < b.2.count)
    (hents : ∀ p ∈ entries, 0 < p.2.count) :
    ∃ c, entries.foldl pickStepChain (some b) = some c ∧ 0 < c.2.count := by
  induction entries generalizing b with
  | nil => exact ⟨b, rfl, hb⟩
  | cons e rest ih =>
    simp only [List.foldl_cons]
    rcases pickStepChain_cases b e with h | h <;> rw [h]
    · exact ih e (hents e (List.mem_cons_self e rest))
        (fun p hp => hents p (List.mem_cons_of_mem _ hp))
    · exact ih b hb (fun p hp => hents p (List.mem_cons_of_mem _ hp))

/-- The selection loop over a non-empty entry list with positive counts picks
some entry with a positive count. -/
lemma pickTopChain_pos (entries : List (String × ChainEntry))
    (hne : entries ≠ []) (hents : ∀ p ∈ entries, 0 < p.2.count) :
    ∃ c, pickTopChain entries = some c ∧ 0 < c.2.count := by
  cases entries with
  | nil => exact absurd rfl hne
  | cons e rest =>
    simp only [pickTopChain, List.foldl_cons]
    have h0 : pickStepChain none e = some e := rfl
    rw [h0]
    exact foldl_pickStepChain_pos rest e (hents e (List.mem_cons_self e rest))
      (fun p hp => hents p (List.mem_cons_of_mem _ hp))

/-- Keeping only the key and the count of an asset-pair entry. -/
def pairCountView (p : String × PairEntry) : String × Nat :=
  (p.1, p.2.count)

/-- The per-pair order counts of the asset-pair grouping loop, computed
without any reference to the network info. -/
def assetPairCountsOnly (orders : List VolumeRow) : List (String × Nat) :=
  orders.foldl
    (fun m o =>
      if o.source_chain = "" ∨ o.source_asset = "" then m
      else upsertCount m (jsToLower o.source_chain ++ "_" ++ jsToLower o.source_asset))
    []

/-- A pair-map update whose function increments the count (from a zero-count
initial entry) projects, under `pairCountView`, to the pure count update. -/
lemma map_upsertPair (m : List (String × PairEntry)) (k : String)
    (init : PairEntry) (f : PairEntry → PairEntry)
    (hf : ∀ e, (f e).count = e.count + 1) (hinit : init.count = 0) :
    (upsertPair m k init f).map pairCountView =
      upsertCount (m.map pairCountView) k := by
  induction m with
  | nil => simp [upsertPair, upsertCount, pairCountView, hf, hinit]
  | cons p rest ih =>
    obtain ⟨k₀, v⟩ := p
    by_cases hk : k₀ = k
    · simp [upsertPair, upsertCount, pairCountView, hk, hf]
    · simp [upsertPair, upsertCount, pairCountView, hk, ih]

/-- The counts of the asset-pair grouping loop do not depend on the network
info: projected to counts, the loop is the pure counting loop. -/
lemma pairCounts_map_countView (networkInfo : NetworkData)
    (orders : List VolumeRow) (acc : List (String × PairEntry)) :
    (orders.foldl (pairCountsStep networkInfo) acc).map pairCountView =
      orders.foldl
        (fun m o =>
          if o.source_chain = "" ∨ o.source_asset = "" then m
          else upsertCount m
            (jsToLower o.source_chain ++ "_" ++ jsToLower o.source_asset))
        (acc.map pairCountView) := by
  induction orders generalizing acc with
  | nil => simp
  | cons o rest ih =>
    simp only [List.foldl_cons, ih]
    congr 1
    by_cases hc : o.source_chain = "" ∨ o.source_asset = ""
    · simp [pairCountsStep, hc]
    · simp only [pairCountsStep, if_neg hc]
      exact map_upsertPair acc _ _ _ (fun _ => rfl) rfl

/-- `assetPairCounts` projected to counts is `assetPairCountsOnly`. -/
lemma assetPairCounts_counts_eq (networkInfo : NetworkData)
    (orders : List VolumeRow) :
    (assetPairCounts networkInfo orders).map pairCountView =
      assetPairCountsOnly orders := by
  simpa [assetPairCounts, assetPairCountsOnly] using
    pairCounts_map_countView networkInfo orders []

/-- A pair-map update never produces the empty map. -/
lemma upsertPair_ne_nil (m : List (String × PairEntry)) (k : String)
    (init : PairEntry) (f : PairEntry → PairEntry) :
    upsertPair m k init f ≠ [] := by
  cases m with
  | nil => simp [upsertPair]
  | cons p rest =>
    obtain ⟨k₀, v⟩ := p
    by_cases hk : k₀ = k <;> simp [upsertPair, hk]

/-- The asset-pair grouping loop never shrinks a non-empty accumulator to
empty. -/
lemma foldl_pairCountsStep_ne_nil (networkInfo : NetworkData)
    (orders : List VolumeRow) (acc : List (String × PairEntry))
    (hacc : acc ≠ []) :
    orders.foldl (pairCountsStep networkInfo) acc ≠ [] := by
  induction orders generalizing acc with
  | nil => exact hacc
  | cons o rest ih =>
    simp only [List.foldl_cons]
    apply ih
    by_cases hc : o.source_chain = "" ∨ o.source_asset = ""
    · simpa [pairCountsStep, hc]
    · simpa [pairCountsStep, hc] using upsertPair_ne_nil _ _ _ _

/-- Every element of an updated pair map comes from the old map or is the
updated binding of the key. -/
lemma mem_upsertPair (m : List (String × PairEntry)) (k : String)
    (init : PairEntry) (f : PairEntry → PairEntry) (p : String × PairEntry)
    (hp : p ∈ upsertPair m k init f) : p ∈ m ∨ ∃ e, p = (k, f e) := by
  induction m with
  | nil =>
    have h0 : upsertPair [] k init f = [(k, f init)] := rfl
    rw [h0, List.mem_singleton] at hp
    exact Or.inr ⟨init, hp⟩
  | cons q rest ih =>
    obtain ⟨k₀, v⟩ := q
    have hstep : upsertPair ((k₀, v) :: rest) k init f =
        if k₀ = k then (k₀, f v) :: rest
        else (k₀, v) :: upsertPair rest k init f := rfl
    rw [hstep] at hp
    by_cases hk : k₀ = k
    · rw [if_pos hk, List.mem_cons] at hp
      rcases hp with hp | hp
      · exact Or.inr ⟨v, hp.trans (by rw [hk])⟩
      · exact Or.inl (List.mem_cons_of_mem _ hp)
    · rw [if_neg hk, List.mem_cons] at hp
      rcases hp with hp | hp
      · exact Or.inl (by rw [hp]; exact List.mem_cons_self _ _)
      · rcases ih hp with h | h
        · exact Or.inl (List.mem_cons_of_mem _ h)
        · exact Or.inr h

/-- Every entry the asset-pair grouping loop produces counts at least one
order. -/
lemma pairCounts_count_pos (networkInfo : NetworkData)
    (orders : List VolumeRow) (acc : List (String × PairEntry))
    (hacc : ∀ p ∈ acc, 0 < p.2.count) :
    ∀ p ∈ orders.foldl (pairCountsStep networkInfo) acc, 0 < p.2.count := by
  induction orders generalizing acc with
  | nil =>
    intro p hp
    simp only [List.foldl_nil] at hp
    exact hacc p hp
  | cons o rest ih =>
    simp only [List.foldl_cons]
    apply ih
    intro p hp
    by_cases hc : o.source_chain = "" ∨ o.source_asset = ""
    · exact hacc p (by simpa [pairCountsStep, hc] using hp)
    · rcases mem_upsertPair _ _ _ _ p
          (by simpa [pairCountsStep, hc] using hp) with h | ⟨e, he⟩
      · exact hacc p h
      · subst he
        exact Nat.succ_pos _

/-- A pair-selection step from a `some` state keeps either the candidate or
the previous best. -/
lemma pickStepPair_cases (b e : String × PairEntry) :
    pickStepPair (some b) e = some e ∨ pickStepPair (some b) e = some b := by
  by_cases h1 : e.2.count > b.2.count
  · exact Or.inl (by simp [pickStepPair, h1])
  · by_cases h2 : e.2.count = b.2.count ∧ e.2.volume > b.2.volume
    · exact Or.inl (by simp [pickStepPair, h1, h2])
    · exact Or.inr (by simp [pickStepPair, h1, h2])

/-- Folding the pair-selection step from a positive-count state over
positive-count entries ends in a positive-count state. -/
lemma foldl_pickStepPair_pos (entries : List (String × PairEntry))
    (b : String × PairEntry) (hb : 0 < b.2.count)
    (hents : ∀ p ∈ entries, 0 < p.2.count) :
    ∃ c, entries.foldl pickStepPair (some b) = some c ∧ 0 < c.2.count := by
  induction entries generalizing b with
  | nil => exact ⟨b, rfl, hb⟩
  | cons e rest ih =>
    simp only [List.foldl_cons]
    rcases pickStepPair_cases b e with h | h <;> rw [h]
    · exact ih e (hents e (List.mem_cons_self e rest))
        (fun p hp => hents p (List.mem_cons_of_mem _ hp))
    · exact ih b hb (fun p hp => hents p (List.mem_cons_of_mem _ hp))

/-- The pair-selection loop over a non-empty entry list with positive counts
picks some entry with a positive count. -/
lemma pickTopPair_pos (entries : List (String × PairEntry))
    (hne : entries ≠ []) (hents : ∀ p ∈ entries, 0 < p.2.count) :
    ∃ c, pickTopPair entries = some c ∧ 0 < c.2.count := by
  cases entries with
  | nil => exact absurd rfl hne
  | cons e rest =>
    simp only [pickTopPair, List.foldl_cons]
    have h0 : pickStepPair none e = some e := rfl
    rw [h0]
    exact foldl_pickStepPair_pos rest e (hents e (List.mem_cons_self e rest))
      (fun p hp => hents p (List.mem_cons_of_mem _ hp))

end CountLemmas

/-- C6: when decimals resolution fails for the source leg of every order in
both lists, both volume sums are 0 while all the order counts survive: the
total counts are passed through from the count queries untouched, the
per-chain and per-pair counts are exactly the pure counting loops (never
consulting the network info), and for a non-empty list of orders with
non-empty source chains (and assets) the reported top chain and top asset
pair still have positive counts — no resolution failure aborts or empties
the aggregation. -/
theorem volumes_zero_counts_kept_on_resolution_failure (inp : SwapMetricsInput)
    (hvol : ∀ o ∈ inp.volumeData, ∃ e,
      getDecimals o.source_chain o.source_asset inp.networkInfo = .error e)
    (hyest : ∀ o ∈ inp.yesterdayVolumeData, ∃ e,
      getDecimals o.source_chain o.source_asset inp.networkInfo = .error e) :
    (getSwapMetrics inp).allTimeVolume = 0 ∧
      (getSwapMetrics inp).last24HoursVolume = 0 ∧
      ((getSwapMetrics inp).allOrders = inp.total_orders ∧
        (getSwapMetrics inp).totalSwaps = inp.fulfilled_orders ∧
        (getSwapMetrics inp).last24HoursSwaps = inp.yesterday_total_orders) ∧
      (chainCounts inp.networkInfo inp.volumeData).map countView =
        chainCountsOnly inp.volumeData ∧
      (assetPairCounts inp.networkInfo inp.volumeData).map pairCountView =
        assetPairCountsOnly inp.volumeData ∧
      (inp.volumeData ≠ [] → (∀ o ∈ inp.volumeData, o.source_chain ≠ "") →
        0 < (getSwapMetrics inp).topChain.count) ∧
      (inp.volumeData ≠ [] →
        (∀ o ∈ inp.volumeData, o.source_chain ≠ "" ∧ o.source_asset ≠ "") →
        0 < (getSwapMetrics inp).topAssetPair.count) := by
  refine ⟨?_, ?_, ⟨rfl, rfl, rfl⟩,
    chainCounts_counts_eq inp.networkInfo inp.volumeData,
    assetPairCounts_counts_eq inp.networkInfo inp.volumeData, ?_, ?_⟩
  · show allTimeVolumeOf inp.networkInfo inp.volumeData = 0
    rw [allTimeVolumeOf, foldl_add_eq_sum, zero_add]
    apply List.sum_eq_zero
    intro x hx
    rw [List.mem_map] at hx
    obtain ⟨o, ho, rfl⟩ := hx
    obtain ⟨e, he⟩ := hvol o ho
    exact allTimeContrib_eq_zero_of_source_error inp.networkInfo o e he
  · show last24HoursVolumeOf inp.networkInfo inp.yesterdayVolumeData = 0
    rw [last24HoursVolumeOf, foldl_add_eq_sum, zero_add]
    apply List.sum_eq_zero
    intro x hx
    rw [List.mem_map] at hx
    obtain ⟨o, ho, rfl⟩ := hx
    obtain ⟨e, he⟩ := hyest o ho
    exact last24Contrib_eq_zero_of_source_error inp.networkInfo o e he
  · intro hne hchains
    have hcne : chainCounts inp.networkInfo inp.volumeData ≠ [] := by
      cases hd : inp.volumeData with
      | nil => exact absurd hd hne
      | cons o rest =>
        rw [chainCounts, List.foldl_cons]
        apply foldl_chainCountsStep_ne_nil
        have ho : o.source_chain ≠ "" :=
          hchains o (by rw [hd]; exact List.mem_cons_self o rest)
        simpa [chainCountsStep, ho] using upsertChain_ne_nil _ _ _
    have hpos : ∀ p ∈ chainCounts inp.networkInfo inp.volumeData,
        0 < p.2.count :=
      chainCounts_count_pos inp.networkInfo inp.volumeData [] (by simp)
    obtain ⟨c, hc, hcpos⟩ := pickTopChain_pos _ hcne hpos
    show 0 < (renderTopChain inp.networkInfo
      (pickTopChain (chainCounts inp.networkInfo inp.volumeData))).count
    rw [hc]
    obtain ⟨cid, e⟩ := c
    simpa [renderTopChain] using hcpos
  · intro hne hpairs
    have hcne : assetPairCounts inp.networkInfo inp.volumeData ≠ [] := by
      cases hd : inp.volumeData with
      | nil => exact absurd hd hne
      | cons o rest =>
        rw [assetPairCounts, List.foldl_cons]
        apply foldl_pairCountsStep_ne_nil
        have ho := hpairs o (by rw [hd]; exact List.mem_cons_self o rest)
        have hcond : ¬(o.source_chain = "" ∨ o.source_asset = "") :=
          not_or.mpr ⟨ho.1, ho.2⟩
        simpa [pairCountsStep, hcond] using upsertPair_ne_nil _ _ _ _
    have hpos : ∀ p ∈ assetPairCounts inp.networkInfo inp.volumeData,
        0 < p.2.count :=
      pairCounts_count_pos inp.networkInfo inp.volumeData [] (by simp)
    obtain ⟨c, hc, hcpos⟩ := pickTopPair_pos _ hcne hpos
    show 0 < (renderTopPair inp.networkInfo
      (pickTopPair (assetPairCounts inp.networkInfo inp.volumeData))).count
    rw [hc]
    obtain ⟨key, e⟩ := c
    simpa [renderTopPair] using hcpos

/-- An order on a chain absent from the empty network info. -/
def unresolvedOrder : VolumeRow :=
  ⟨"z", 9, 9, "zeta", "ZZZ", "zeta", "ZZZ", 3, 3⟩

/-- The C6 witness snapshot: one unresolvable order in each list, empty
network info. -/
def failInput : SwapMetricsInput :=
  ⟨3, 2, 1, 0, [unresolvedOrder], [unresolvedOrder], []⟩

/-- Witness for C6 at the concrete unresolvable snapshot. -/
theorem volumes_zero_counts_kept_on_resolution_failure_witness :
    (getSwapMetrics failInput).allTimeVolume = 0 ∧
      (getSwapMetrics failInput).last24HoursVolume = 0 ∧
      ((getSwapMetrics failInput).allOrders = failInput.total_orders ∧
        (getSwapMetrics failInput).totalSwaps = failInput.fulfilled_orders ∧
        (getSwapMetrics failInput).last24HoursSwaps =
          failInput.yesterday_total_orders) ∧
      (chainCounts failInput.networkInfo failInput.volumeData).map countView =
        chainCountsOnly failInput.volumeData ∧
      (assetPairCounts failInput.networkInfo failInput.volumeData).map
          pairCountView =
        assetPairCountsOnly failInput.volumeData ∧
      (failInput.volumeData ≠ [] →
        (∀ o ∈ failInput.volumeData, o.source_chain ≠ "") →
        0 < (getSwapMetrics failInput).topChain.count) ∧
      (failInput.volumeData ≠ [] →
        (∀ o ∈ failInput.volumeData,
          o.source_chain ≠ "" ∧ o.source_asset ≠ "") →
        0 < (getSwapMetrics failInput).topAssetPair.count) :=
  volumes_zero_counts_kept_on_resolution_failure failInput
    (by intro o ho; simp only [failInput, List.mem_singleton] at ho
        subst ho; exact ⟨_, rfl⟩)
    (by intro o ho; simp only [failInput, List.mem_singleton] at ho
        subst ho; exact ⟨_, rfl⟩)

/-- C7 counterexample: with an empty decimal mapping the lookup misses, yet
the dynamic-volume resolution silently returns the default 18 instead of an
error. -/
theorem dynamic_decimals_silent_default_cex :
    decimalMappingGet [] ("ethereum" ++ "_" ++ "0xdead") = none ∧
      sourceDecimalsDynamic [] "ethereum" "0xdead" = 18 :=
  ⟨rfl, rfl⟩

/-- C7 amended: the aggregator's resolver `getDecimals` does produce an error
on every lookup miss (chain absent, or no asset-config match), apart from the
one hard-coded asset; but the dynamic-volume helpers silently substitute a
default (8 for bitcoin_testnet/primary, else 18) when their decimal mapping
misses. -/
theorem decimals_miss_behavior (chain asset : String)
    (networkInfo : NetworkData) (decimalMapping : List (String × Nat))
    (hnotHard : asset ≠ hardcodedStarknetAsset)
    (hmiss : lookupChain networkInfo chain = none ∨
      ∃ c, lookupChain networkInfo chain = some c ∧
        c.assetConfig.find? (assetMatches asset) = none)
    (hdmiss : decimalMappingGet decimalMapping (chain ++ "_" ++ asset) = none) :
    (∃ e, getDecimals chain asset networkInfo = .error e) ∧
      sourceDecimalsDynamic decimalMapping chain asset =
        if chain = "bitcoin_testnet" ∧ asset = "primary" then 8 else 18 := by
  constructor
  · rcases hmiss with h | ⟨c, hc, hfind⟩
    · exact ⟨"Chain " ++ chain ++ " not found in network info",
        by simp [getDecimals, hnotHard, h]⟩
    · exact ⟨"Asset " ++ asset ++ " not found for chain " ++ chain,
        by simp [getDecimals, hnotHard, hc, hfind]⟩
  · simp [sourceDecimalsDynamic, jsOrNat, hdmiss]

/-- Witness for the amended C7 at a concrete miss. -/
theorem decimals_miss_behavior_witness :
    (∃ e, getDecimals "ethereum" "0xdead" [] = .error e) ∧
      sourceDecimalsDynamic [] "ethereum" "0xdead" =
        if "ethereum" = "bitcoin_testnet" ∧ "0xdead" = "primary" then 8
        else 18 :=
  decimals_miss_behavior "ethereum" "0xdead" [] [] (by decide) (Or.inl rfl) rfl

/-- A network-info fixture for the C10 counterexample: one chain, one asset
with 0 decimals. -/
def mismatchNi : NetworkData :=
  [("gamma", ⟨"Gamma", [⟨"Gamma Coin", 0, "GAM", "0xcccc", "0xcccd"⟩]⟩)]

/-- An order with unequal raw amounts (1 vs 2) and output price 0. -/
def mismatchOrder : VolumeRow :=
  ⟨"m", 1, 2, "gamma", "GAM", "gamma", "GAM", 1, 0⟩

set_option maxRecDepth 100000 in
/-- C10 counterexample: both legs resolve, the raw amounts differ, yet the
per-order volume of `getOrderMetrics` equals the true two-sided USD value
(the output price is 0), refuting that they coincide ONLY when the raw
amounts are equal. -/
theorem order_volume_coincides_despite_unequal_amounts_cex :
    getDecimals mismatchOrder.source_chain mismatchOrder.source_asset
        mismatchNi = .ok 0 ∧
      getDecimals mismatchOrder.destination_chain
        mismatchOrder.destination_asset mismatchNi = .ok 0 ∧
      mismatchOrder.source_swap_amount ≠ mismatchOrder.destination_swap_amount ∧
      orderMetricsVolume mismatchNi mismatchOrder =
        trueTwoSidedUsdValue 0 0 mismatchOrder := by
  refine ⟨rfl, rfl, by norm_num [mismatchOrder], ?_⟩
  with_unfolding_all decide

/-- C10 amended: when both legs resolve, the per-order volume of
`getOrderMetrics` computes BOTH terms from the source raw amount; hence for a
nonzero output price it coincides with the true two-sided USD value exactly
when the source and destination raw amounts are equal. -/
theorem order_metrics_volume_uses_source_amount (networkInfo : NetworkData)
    (o : VolumeRow) (sd dd : Nat)
    (hs : getDecimals o.source_chain o.source_asset networkInfo = .ok sd)
    (hd : getDecimals o.destination_chain o.destination_asset networkInfo =
      .ok dd) :
    orderMetricsVolume networkInfo o =
        o.source_swap_amount / 10 ^ sd * o.input_token_price +
          o.source_swap_amount / 10 ^ dd * o.output_token_price ∧
      (o.output_token_price ≠ 0 →
        (orderMetricsVolume networkInfo o = trueTwoSidedUsdValue sd dd o ↔
          o.source_swap_amount = o.destination_swap_amount)) := by
  have hform : orderMetricsVolume networkInfo o =
      o.source_swap_amount / 10 ^ sd * o.input_token_price +
        o.source_swap_amount / 10 ^ dd * o.output_token_price := by
    simp [orderMetricsVolume, hs, hd]
  refine ⟨hform, fun hpout => ?_⟩
  rw [hform, trueTwoSidedUsdValue]
  constructor
  · intro h
    have h2 := add_left_cancel h
    have h3 := mul_right_cancel₀ hpout h2
    have hc : ((10 : ℚ) ^ dd) ≠ 0 := by positivity
    exact mul_right_cancel₀ hc ((div_eq_div_iff hc hc).mp h3)
  · intro h
    rw [h]

/-- Witness for the amended C10 at the concrete fixture. -/
theorem order_metrics_volume_uses_source_amount_witness :
    orderMetricsVolume mismatchNi mismatchOrder =
        mismatchOrder.source_swap_amount / 10 ^ 0 *
            mismatchOrder.input_token_price +
          mismatchOrder.source_swap_amount / 10 ^ 0 *
            mismatchOrder.output_token_price ∧
      (mismatchOrder.output_token_price ≠ 0 →
        (orderMetricsVolume mismatchNi mismatchOrder =
            trueTwoSidedUsdValue 0 0 mismatchOrder ↔
          mismatchOrder.source_swap_amount =
            mismatchOrder.destination_swap_amount)) :=
  order_metrics_volume_uses_source_amount mismatchNi mismatchOrder 0 0 rfl rfl

end TwitterBot
